import Mathlib

/-!
Shallow embedding of the scoring stage of the hackathon-review pipeline
(`src/hackathon_reviewer/stages/scoring.py` together with the data model of
`src/hackathon_reviewer/models.py` and the scoring part of
`src/hackathon_reviewer/config.py`).

Python floats are modelled as real numbers, Python ints as integers or
naturals, Python dicts as association lists in insertion order (keys unique),
and `None`-able arguments as `Option`.  `round(x, n)` is Python 3's
round-half-to-even, modelled exactly on the reals.  Fields of the pydantic
models that the scoring stage never reads (URLs, timestamps, token counts,
enum fields only carried along, ...) are omitted from the embedding; every
field that `scoring.py` reads is present with its default value.
I/O performed by `run_scoring` (progress echo, JSON persistence) is outside
the embedding; only the returned list is modelled.
-/

namespace HackathonReviewer

/-- Enum HackathonPeriodFlag from models.py. -/
inductive HackathonPeriodFlag where
  | clean
  | minor_prior_work
  | significant_prior_work
  | pre_existing_project
  | unknown
deriving DecidableEq, Repr

/-- The fields of `Submission` read by the scoring stage. -/
structure Submission where
  team_number : ℤ
  team_name : String
  project_name : String
  sanitized_name : String
  description : String := ""

/-- The fields of `GitHistory` read by the scoring stage. -/
structure GitHistory where
  total_commits : ℕ := 0
  commits_before_hackathon : ℕ := 0
  commits_during_hackathon : ℕ := 0
  commits_after_deadline : ℕ := 0
  hackathon_period_flag : HackathonPeriodFlag := .unknown
  is_fork : Bool := false
  is_single_commit_dump : Bool := false

/-- The fields of `RepoFiles` read by the scoring stage.
`languages` maps a language name to a line count (dict, insertion order). -/
structure RepoFiles where
  file_count : ℕ := 0
  total_loc : ℕ := 0
  primary_language : String := "unknown"
  languages : List (String × ℕ) := []
  has_readme : Bool := false
  has_tests : Bool := false

/-- Model RepoMetadata from models.py. -/
structure RepoMetadata where
  team_number : ℤ
  team_name : String
  project_name : String
  sanitized_name : String
  clone_success : Bool := false
  files : RepoFiles := {}
  git_history : GitHistory := {}

/-- The fields of `RepoStructure` read by the scoring stage. -/
structure RepoStructure where
  has_docker : Bool := false
  has_ci : Bool := false
  has_env_example : Bool := false
  has_claude_md : Bool := false
  has_license : Bool := false
  frameworks_detected : List String := []

/-- Model StaticAnalysisResult from models.py.  Scoring only tests membership of
pattern names in `integration_patterns`, so the dict is modelled by its key
list (the `PatternMatch` values are never read by this stage). -/
structure StaticAnalysisResult where
  team_number : ℤ
  clone_success : Bool := false
  integration_patterns : List String := []
  integration_score : ℤ := 0
  is_boilerplate_heavy : Bool := false
  «structure» : RepoStructure := {}

/-- Model CriterionScore from models.py, with its pydantic defaults. -/
structure CriterionScore where
  score : ℝ
  rationale : String := ""
  source : String := "automated"

/-- The fields of `CodeReviewResult` read by the scoring stage. -/
structure CodeReviewResult where
  team_number : ℤ
  success : Bool := false
  error : Option String := none
  review_text : String := ""
  scores : List (String × CriterionScore) := []

/-- The fields of `VideoDownloadResult` read by the scoring stage. -/
structure VideoDownloadResult where
  success : Bool := false
  error : Option String := none
  method : String := ""
  duration_seconds : ℝ := 0

/-- The fields of `VideoAnalysisResult` read by the scoring stage. -/
structure VideoAnalysisResult where
  team_number : ℤ
  download : VideoDownloadResult := {}
  analysis_success : Bool := false
  analysis_error : Option String := none
  is_related_to_project : Bool := true
  review_text : String := ""
  scores : List (String × CriterionScore) := []

/-- Model ProjectScore from models.py, with its pydantic defaults. -/
structure ProjectScore where
  team_number : ℤ
  team_name : String
  project_name : String
  scores : List (String × CriterionScore) := []
  weighted_total : ℝ := 0
  score_source : String := "automated"

/-- Model ScoringCriterion from config.py. -/
structure ScoringCriterion where
  weight : ℝ
  description : String := ""

/-- Model ScoringConfig from config.py (criteria is a dict in insertion order). -/
structure ScoringConfig where
  criteria : List (String × ScoringCriterion) := []

/-- The field of `ReviewConfig` read by the scoring stage. -/
structure ReviewConfig where
  scoring : Option ScoringConfig := none

/-- Function _log_scale from scoring.py: sigmoid-like scaling mapping `value` to
`[0,1)` with `value = midpoint` at `0.5`. -/
noncomputable def _log_scale (value midpoint steepness : ℝ) : ℝ :=
  if value ≤ 0 then 0
  else 1 / (1 + Real.exp (-steepness * (Real.log (value + 1) - Real.log (midpoint + 1))))

/-- Python's `len(s.split())`: number of maximal whitespace-free chunks. -/
def pyWordCount (s : String) : ℕ :=
  ((s.split fun c => c.isWhitespace).filter fun w => w ≠ "").length

/-- Python 3's builtin banker's rounding to an integer, on exact reals:
nearest integer, ties to the even choice. -/
noncomputable def roundHalfEven (x : ℝ) : ℤ :=
  if x - ⌊x⌋ < 1 / 2 then ⌊x⌋
  else if 1 / 2 < x - ⌊x⌋ then ⌊x⌋ + 1
  else if Even ⌊x⌋ then ⌊x⌋ else ⌊x⌋ + 1

/-- Python 3's `round(x, ndigits)` on exact reals. -/
noncomputable def pyRound (ndigits : ℕ) (x : ℝ) : ℝ :=
  (roundHalfEven (x * 10 ^ ndigits) : ℝ) / 10 ^ ndigits

/-- Function _heuristic_impact from scoring.py. -/
noncomputable def _heuristic_impact (sub : Submission) (meta : RepoMetadata)
    (static : StaticAnalysisResult) : ℝ :=
  let score : ℝ :=
    min 2 ((pyWordCount sub.description : ℝ) / 80)
    + _log_scale (meta.files.total_loc : ℝ) 5000 1.2 * 2.5
    + min 1 ((static.«structure».frameworks_detected.length : ℝ) * 0.4)
    + (if meta.files.has_readme then 1 else 0)
    + ((if static.«structure».has_docker then 0.5 else 0)
       + (if static.«structure».has_ci then 0.5 else 0)
       + (if static.«structure».has_env_example then 0.5 else 0))
  max 1 (min 10 score)

/-- Function _heuristic_ai_use from scoring.py. -/
noncomputable def _heuristic_ai_use (static : StaticAnalysisResult) : ℝ :=
  if static.integration_score = 0 then 1
  else
    let base : ℝ := 1 + _log_scale (static.integration_score : ℝ) 60 1 * 7
    let bonus : ℝ :=
      (if "extended_thinking" ∈ static.integration_patterns then 0.4 else 0)
      + (if "mcp_server" ∈ static.integration_patterns then 0.3 else 0)
      + (if "agentic_pattern" ∈ static.integration_patterns then 0.3 else 0)
      + (if "anthropic_sdk" ∈ static.integration_patterns
            ∨ "openai_sdk" ∈ static.integration_patterns
            ∨ "gemini_sdk" ∈ static.integration_patterns then 0.3 else 0)
      + (if "tool_use" ∈ static.integration_patterns then 0.2 else 0)
    max 1 (min 8 (base + bonus))

/-- Function _heuristic_depth from scoring.py.  `a or b` on Python ints picks `b`
exactly when `a` is 0. -/
noncomputable def _heuristic_depth (meta : RepoMetadata)
    (static : StaticAnalysisResult) : ℝ :=
  let commits : ℕ :=
    if meta.git_history.commits_during_hackathon = 0 then meta.git_history.total_commits
    else meta.git_history.commits_during_hackathon
  let code_langs :=
    meta.files.languages.filter fun p =>
      p.1 ∉ (["Markdown", "JSON", "YAML", "TOML"] : List String)
  let score : ℝ :=
    _log_scale (commits : ℝ) 50 1 * 2.5
    + _log_scale (meta.files.total_loc : ℝ) 10000 1 * 2
    + (if meta.files.has_tests then 1 else 0)
    + (if static.«structure».has_claude_md then 0.5 else 0)
    + (if meta.files.has_readme then 0.5 else 0)
    + (if 3 ≤ code_langs.length then 0.5 else 0)
    + (if static.«structure».has_docker then 0.5 else 0)
    + (if static.«structure».has_ci then 0.5 else 0)
    + _log_scale (meta.files.file_count : ℝ) 50 1
    - (if meta.git_history.is_single_commit_dump then 2 else 0)
    - (if static.is_boilerplate_heavy then 2 else 0)
    - (match meta.git_history.hackathon_period_flag with
       | .pre_existing_project => 3
       | .significant_prior_work => 1.5
       | _ => 0)
  max 1 (min 10 score)

/-- Function _heuristic_demo from scoring.py. -/
noncomputable def _heuristic_demo (video : Option VideoAnalysisResult) : ℝ :=
  match video with
  | none => 1
  | some v =>
    if v.download.success = false then 1
    else
      let dur := v.download.duration_seconds
      let score : ℝ :=
        1 + (if dur < 30 then 0.3 else if dur < 60 then 1 else if dur ≤ 200 then 2.5 else 2)
      max 1 (min 8 score)

/-- The code-review half of the LLM-score selection in `_score_one`
(lines 155-157): the review's score for `crit_name` when the review exists,
succeeded, and carries the key. -/
def reviewLlmScore (code_review : Option CodeReviewResult) (crit_name : String) : Option ℝ :=
  match code_review with
  | some cr => if cr.success then (cr.scores.lookup crit_name).map CriterionScore.score else none
  | none => none

/-- The video half of the LLM-score selection in `_score_one` (lines 158-159):
the video analysis's `"demo"` score when `crit_name` is `"demo"` and the
analysis succeeded with that key present.  When this is `some`, it overwrites
the code-review score. -/
def videoLlmScore (video : Option VideoAnalysisResult) (crit_name : String) : Option ℝ :=
  if crit_name = "demo" then
    match video with
    | some v => if v.analysis_success then (v.scores.lookup "demo").map CriterionScore.score else none
    | none => none
  else none

/-- The heuristic fallback value of the per-criterion loop (lines 168-175):
dispatch on the criterion name through `heuristic_map`, with the fixed neutral
5.0 for an unrecognized key. -/
noncomputable def heuristicVal (sub : Submission) (meta : RepoMetadata)
    (static : StaticAnalysisResult) (video : Option VideoAnalysisResult)
    (crit_name : String) : ℝ :=
  if crit_name = "impact" then _heuristic_impact sub meta static
  else if crit_name = "ai_use" then _heuristic_ai_use static
  else if crit_name = "depth" then _heuristic_depth meta static
  else if crit_name = "demo" then _heuristic_demo video
  else 5

/-- The body of the per-criterion loop of `_score_one` (lines 153-179): the
merged `CriterionScore` for one configured criterion name. -/
noncomputable def resolveScore (sub : Submission) (meta : RepoMetadata)
    (static : StaticAnalysisResult) (code_review : Option CodeReviewResult)
    (video : Option VideoAnalysisResult) (crit_name : String) : CriterionScore :=
  let llm_score : Option ℝ :=
    match videoLlmScore video crit_name with
    | some s => some s
    | none => reviewLlmScore code_review crit_name
  match llm_score with
  | some s => { score := s, source := "llm_review" }
  | none =>
    { score := pyRound 1 (heuristicVal sub meta static video crit_name),
      source := "heuristic" }

/-- The default `RepoMetadata` built by `_score_one` when none is supplied
(lines 147-150). -/
def defaultMeta (sub : Submission) : RepoMetadata :=
  { team_number := sub.team_number, team_name := sub.team_name,
    project_name := sub.project_name, sanitized_name := sub.sanitized_name }

/-- The default `StaticAnalysisResult` built by `_score_one` when none is
supplied (line 151). -/
def defaultStatic (team_number : ℤ) : StaticAnalysisResult :=
  { team_number := team_number }

/-- Function _score_one from scoring.py. -/
noncomputable def _score_one (sub : Submission) (meta : Option RepoMetadata)
    (static : Option StaticAnalysisResult) (code_review : Option CodeReviewResult)
    (video : Option VideoAnalysisResult) (cfg : ReviewConfig) : ProjectScore :=
  let ps : ProjectScore :=
    { team_number := sub.team_number, team_name := sub.team_name,
      project_name := sub.project_name }
  match cfg.scoring with
  | none => ps
  | some sc =>
    if sc.criteria.isEmpty then ps
    else
      let m := meta.getD (defaultMeta sub)
      let st := static.getD (defaultStatic sub.team_number)
      let scores := sc.criteria.map fun p => (p.1, resolveScore sub m st code_review video p.1)
      let total : ℝ :=
        (sc.criteria.map fun p =>
          match scores.lookup p.1 with
          | some cs => cs.score * p.2.weight
          | none => 0).sum
      { ps with scores := scores, weighted_total := pyRound 2 total }

/-- Python's `{x.team_number: x for x in l}.get(tn)`: the last element of `l`
carrying team number `tn`, if any. -/
def lookupTeam {α : Type} (key : α → ℤ) (l : List α) (tn : ℤ) : Option α :=
  l.foldl (fun acc a => if key a = tn then some a else acc) none

/-- The descending-total ordering used by `run_scoring`'s
`sort(key=weighted_total, reverse=True)`. -/
def totalGe (a b : ProjectScore) : Prop :=
  b.weighted_total ≤ a.weighted_total

noncomputable instance : DecidableRel totalGe :=
  fun a b => Real.decidableLE b.weighted_total a.weighted_total

/-- The unsorted per-submission score list built by `run_scoring`'s main loop
(lines 215-225), in input order. -/
noncomputable def scoredList (cfg : ReviewConfig) (submissions : List Submission)
    (repo_metadata : List RepoMetadata) (static_results : List StaticAnalysisResult)
    (code_reviews : List CodeReviewResult) (video_results : List VideoAnalysisResult) :
    List ProjectScore :=
  submissions.map fun sub =>
    _score_one sub
      (lookupTeam RepoMetadata.team_number repo_metadata sub.team_number)
      (lookupTeam StaticAnalysisResult.team_number static_results sub.team_number)
      (lookupTeam CodeReviewResult.team_number code_reviews sub.team_number)
      (lookupTeam VideoAnalysisResult.team_number video_results sub.team_number)
      cfg

/-- Function run_scoring from scoring.py (its returned value; persistence and console
output are I/O outside the embedding).  Python's `list.sort` is stable, which
insertion sort with this insertion rule models exactly. -/
noncomputable def run_scoring (cfg : ReviewConfig) (submissions : List Submission)
    (repo_metadata : List RepoMetadata) (static_results : List StaticAnalysisResult)
    (code_reviews : List CodeReviewResult) (video_results : List VideoAnalysisResult) :
    List ProjectScore :=
  match cfg.scoring with
  | none => []
  | some sc =>
    if sc.criteria.isEmpty then []
    else
      List.insertionSort totalGe
        (scoredList cfg submissions repo_metadata static_results code_reviews video_results)

/-! Helper lemmas about rounding. -/

theorem roundHalfEven_within (x : ℝ) :
    x - 1 / 2 ≤ (roundHalfEven x : ℝ) ∧ (roundHalfEven x : ℝ) ≤ x + 1 / 2 := by
  have h1 : (⌊x⌋ : ℝ) ≤ x := Int.floor_le x
  have h2 : x < ⌊x⌋ + 1 := Int.lt_floor_add_one x
  unfold roundHalfEven
  split_ifs with ha hb hc <;> constructor <;> push_cast <;> linarith

theorem roundHalfEven_le_of_le {b : ℤ} {x : ℝ} (h : x ≤ (b : ℝ)) :
    roundHalfEven x ≤ b := by
  have hfl : ⌊x⌋ ≤ b := by
    have := Int.floor_le_floor h
    simpa using this
  have hstep : 1 / 2 ≤ x - ⌊x⌋ → ⌊x⌋ + 1 ≤ b := by
    intro hh
    have hlt : (⌊x⌋ : ℝ) < (b : ℝ) := by linarith
    exact_mod_cast Int.add_one_le_iff.mpr (by exact_mod_cast hlt)
  unfold roundHalfEven
  split_ifs with ha hb hc
  · exact hfl
  · exact hstep (le_of_lt hb)
  · exact hfl
  · exact hstep (by linarith)

theorem le_roundHalfEven_of_le {a : ℤ} {x : ℝ} (h : (a : ℝ) ≤ x) :
    a ≤ roundHalfEven x := by
  have hfl : a ≤ ⌊x⌋ := Int.le_floor.mpr h
  unfold roundHalfEven
  split_ifs <;> omega

theorem roundHalfEven_intCast (n : ℤ) : roundHalfEven (n : ℝ) = n := by
  unfold roundHalfEven
  simp

theorem pyRound_two_within (x : ℝ) :
    x - 1 / 200 ≤ pyRound 2 x ∧ pyRound 2 x ≤ x + 1 / 200 := by
  have h := roundHalfEven_within (x * 10 ^ 2)
  unfold pyRound
  constructor <;> [skip; skip] <;> nlinarith [h.1, h.2]

theorem pyRound_one_mem {x : ℝ} (h1 : 1 ≤ x) (h2 : x ≤ 10) :
    1 ≤ pyRound 1 x ∧ pyRound 1 x ≤ 10 := by
  have hlo : ((10 : ℤ) : ℝ) ≤ x * 10 ^ 1 := by push_cast; nlinarith
  have hhi : x * 10 ^ 1 ≤ ((100 : ℤ) : ℝ) := by push_cast; nlinarith
  have hl := le_roundHalfEven_of_le hlo
  have hh := roundHalfEven_le_of_le hhi
  have hl' : (10 : ℝ) ≤ (roundHalfEven (x * 10 ^ 1) : ℝ) := by exact_mod_cast hl
  have hh' : (roundHalfEven (x * 10 ^ 1) : ℝ) ≤ 100 := by exact_mod_cast hh
  have h10 : (0 : ℝ) < 10 ^ 1 := by norm_num
  unfold pyRound
  constructor
  · rw [le_div_iff h10]
    linarith [(by norm_num : (1 : ℝ) * 10 ^ 1 = 10)]
  · rw [div_le_iff h10]
    linarith [(by norm_num : (10 : ℝ) * 10 ^ 1 = 100)]

theorem pyRound_one_five : pyRound 1 (5 : ℝ) = 5 := by
  have h : (5 : ℝ) * 10 ^ 1 = ((50 : ℤ) : ℝ) := by norm_num
  unfold pyRound
  rw [h, roundHalfEven_intCast]
  norm_num

/-! Helper lemmas about dict lookups on association lists. -/

theorem lookup_map_key {β γ : Type} (f : String → γ) :
    ∀ (l : List (String × β)) (c : String),
      (l.map fun p => (p.1, f p.1)).lookup c = (l.lookup c).map fun _ => f c
  | [], _ => rfl
  | (k, b) :: l, c => by
    by_cases h : c = k
    · subst h
      simp [List.lookup]
    · have hbeq : (c == k) = false := beq_eq_false_iff_ne.mpr h
      simp [List.lookup, hbeq, lookup_map_key f l c]

theorem lookup_isSome_of_mem {β : Type} :
    ∀ (l : List (String × β)) (p : String × β), p ∈ l → (l.lookup p.1).isSome
  | (k, b) :: l, p, hp => by
    rcases List.mem_cons.mp hp with h | h
    · subst h
      simp [List.lookup]
    · by_cases hk : p.1 = k
      · simp [List.lookup, hk]
      · have hbeq : (p.1 == k) = false := beq_eq_false_iff_ne.mpr hk
        simp only [List.lookup, hbeq]
        exact lookup_isSome_of_mem l p h

theorem lookup_map_key_of_mem {β γ : Type} (f : String → γ)
    (l : List (String × β)) (p : String × β) (hp : p ∈ l) :
    (l.map fun q => (q.1, f q.1)).lookup p.1 = some (f p.1) := by
  rw [lookup_map_key]
  rcases Option.isSome_iff_exists.mp (lookup_isSome_of_mem l p hp) with ⟨b, hb⟩
  rw [hb]
  rfl

/-! Helper lemmas about the heuristic estimators' ranges. -/

theorem _heuristic_impact_mem (sub : Submission) (meta : RepoMetadata)
    (static : StaticAnalysisResult) :
    1 ≤ _heuristic_impact sub meta static ∧ _heuristic_impact sub meta static ≤ 10 := by
  unfold _heuristic_impact
  exact ⟨le_max_left _ _, max_le (by norm_num) (min_le_left _ _)⟩

theorem _heuristic_ai_use_mem (static : StaticAnalysisResult) :
    1 ≤ _heuristic_ai_use static ∧ _heuristic_ai_use static ≤ 8 := by
  unfold _heuristic_ai_use
  by_cases h : static.integration_score = 0
  · rw [if_pos h]
    norm_num
  · rw [if_neg h]
    exact ⟨le_max_left _ _, max_le (by norm_num) (min_le_left _ _)⟩

theorem _heuristic_depth_mem (meta : RepoMetadata) (static : StaticAnalysisResult) :
    1 ≤ _heuristic_depth meta static ∧ _heuristic_depth meta static ≤ 10 := by
  unfold _heuristic_depth
  exact ⟨le_max_left _ _, max_le (by norm_num) (min_le_left _ _)⟩

theorem _heuristic_demo_mem (video : Option VideoAnalysisResult) :
    1 ≤ _heuristic_demo video ∧ _heuristic_demo video ≤ 8 := by
  cases video with
  | none =>
    simp only [_heuristic_demo]
    norm_num
  | some v =>
    simp only [_heuristic_demo]
    by_cases h : v.download.success = false
    · rw [if_pos h]
      norm_num
    · rw [if_neg h]
      exact ⟨le_max_left _ _, max_le (by norm_num) (min_le_left _ _)⟩

theorem mem_of_lookup_eq_some {β : Type} :
    ∀ {l : List (String × β)} {k : String} {b : β}, l.lookup k = some b → (k, b) ∈ l
  | (k0, b0) :: l, k, b, h => by
    by_cases hk : k = k0
    · subst hk
      simp only [List.lookup, beq_self_eq_true] at h
      cases h
      exact List.mem_cons_self _ _
    · have hbeq : (k == k0) = false := beq_eq_false_iff_ne.mpr hk
      simp only [List.lookup, hbeq] at h
      exact List.mem_cons_of_mem _ (mem_of_lookup_eq_some h)

/-! Helper lemmas about the merge policy. -/

theorem videoLlmScore_none_video (c : String) : videoLlmScore none c = none := by
  unfold videoLlmScore
  split <;> rfl

theorem reviewLlmScore_none_review (c : String) : reviewLlmScore none c = none := rfl

theorem videoLlmScore_some (v : VideoAnalysisResult) (c : String) :
    videoLlmScore (some v) c =
      if c = "demo" then
        (if v.analysis_success then (v.scores.lookup "demo").map CriterionScore.score else none)
      else none := by
  unfold videoLlmScore
  split <;> rfl

theorem reviewLlmScore_some (cr : CodeReviewResult) (c : String) :
    reviewLlmScore (some cr) c =
      if cr.success then (cr.scores.lookup c).map CriterionScore.score else none := rfl

theorem resolveScore_of_video (sub : Submission) (meta : RepoMetadata)
    (static : StaticAnalysisResult) (code_review : Option CodeReviewResult)
    (video : Option VideoAnalysisResult) (c : String) (s : ℝ)
    (hv : videoLlmScore video c = some s) :
    resolveScore sub meta static code_review video c =
      { score := s, rationale := "", source := "llm_review" } := by
  unfold resolveScore
  rw [hv]

theorem resolveScore_of_review (sub : Submission) (meta : RepoMetadata)
    (static : StaticAnalysisResult) (code_review : Option CodeReviewResult)
    (video : Option VideoAnalysisResult) (c : String) (s : ℝ)
    (hv : videoLlmScore video c = none)
    (hr : reviewLlmScore code_review c = some s) :
    resolveScore sub meta static code_review video c =
      { score := s, rationale := "", source := "llm_review" } := by
  unfold resolveScore
  rw [hv, hr]

theorem resolveScore_of_heuristic (sub : Submission) (meta : RepoMetadata)
    (static : StaticAnalysisResult) (code_review : Option CodeReviewResult)
    (video : Option VideoAnalysisResult) (c : String)
    (hv : videoLlmScore video c = none)
    (hr : reviewLlmScore code_review c = none) :
    resolveScore sub meta static code_review video c =
      { score := pyRound 1 (heuristicVal sub meta static video c),
        rationale := "", source := "heuristic" } := by
  unfold resolveScore
  rw [hv, hr]

theorem resolveScore_rationale (sub : Submission) (meta : RepoMetadata)
    (static : StaticAnalysisResult) (code_review : Option CodeReviewResult)
    (video : Option VideoAnalysisResult) (c : String) :
    (resolveScore sub meta static code_review video c).rationale = "" := by
  unfold resolveScore
  rcases videoLlmScore video c with _ | s
  · rcases reviewLlmScore code_review c with _ | s <;> rfl
  · rfl

theorem heuristicVal_mem (sub : Submission) (meta : RepoMetadata)
    (static : StaticAnalysisResult) (video : Option VideoAnalysisResult) (c : String) :
    1 ≤ heuristicVal sub meta static video c ∧ heuristicVal sub meta static video c ≤ 10 := by
  unfold heuristicVal
  split_ifs
  · exact _heuristic_impact_mem sub meta static
  · exact ⟨(_heuristic_ai_use_mem static).1, (_heuristic_ai_use_mem static).2.trans (by norm_num)⟩
  · exact _heuristic_depth_mem meta static
  · exact ⟨(_heuristic_demo_mem video).1, (_heuristic_demo_mem video).2.trans (by norm_num)⟩
  · norm_num

theorem videoLlmScore_mem {video : Option VideoAnalysisResult} {c : String} {s : ℝ}
    (hvid : ∀ v, video = some v → ∀ p ∈ v.scores, 1 ≤ p.2.score ∧ p.2.score ≤ 10)
    (hv : videoLlmScore video c = some s) : 1 ≤ s ∧ s ≤ 10 := by
  cases video with
  | none => rw [videoLlmScore_none_video] at hv; cases hv
  | some v =>
    rw [videoLlmScore_some] at hv
    split at hv
    · split at hv
      · rcases Option.map_eq_some'.mp hv with ⟨cs, hcs, hscore⟩
        subst hscore
        exact hvid v rfl _ (mem_of_lookup_eq_some hcs)
      · cases hv
    · cases hv

theorem reviewLlmScore_mem {code_review : Option CodeReviewResult} {c : String} {s : ℝ}
    (hcr : ∀ cr, code_review = some cr → ∀ p ∈ cr.scores, 1 ≤ p.2.score ∧ p.2.score ≤ 10)
    (hr : reviewLlmScore code_review c = some s) : 1 ≤ s ∧ s ≤ 10 := by
  cases code_review with
  | none => rw [reviewLlmScore_none_review] at hr; cases hr
  | some cr =>
    rw [reviewLlmScore_some] at hr
    split at hr
    · rcases Option.map_eq_some'.mp hr with ⟨cs, hcs, hscore⟩
      subst hscore
      exact hcr cr rfl _ (mem_of_lookup_eq_some hcs)
    · cases hr

theorem resolveScore_score_mem (sub : Submission) (meta : RepoMetadata)
    (static : StaticAnalysisResult) (code_review : Option CodeReviewResult)
    (video : Option VideoAnalysisResult) (c : String)
    (hcr : ∀ cr, code_review = some cr → ∀ p ∈ cr.scores, 1 ≤ p.2.score ∧ p.2.score ≤ 10)
    (hvid : ∀ v, video = some v → ∀ p ∈ v.scores, 1 ≤ p.2.score ∧ p.2.score ≤ 10) :
    1 ≤ (resolveScore sub meta static code_review video c).score ∧
      (resolveScore sub meta static code_review video c).score ≤ 10 := by
  cases hv : videoLlmScore video c with
  | some s =>
    rw [resolveScore_of_video sub meta static code_review video c s hv]
    exact videoLlmScore_mem hvid hv
  | none =>
    cases hr : reviewLlmScore code_review c with
    | some s =>
      rw [resolveScore_of_review sub meta static code_review video c s hv hr]
      exact reviewLlmScore_mem hcr hr
    | none =>
      rw [resolveScore_of_heuristic sub meta static code_review video c hv hr]
      exact pyRound_one_mem (heuristicVal_mem sub meta static video c).1
        (heuristicVal_mem sub meta static video c).2

/-! Helper lemmas about the per-submission scorer. -/

theorem _score_one_scoring_none (sub : Submission) (meta : Option RepoMetadata)
    (static : Option StaticAnalysisResult) (code_review : Option CodeReviewResult)
    (video : Option VideoAnalysisResult) (cfg : ReviewConfig)
    (h : cfg.scoring = none) :
    _score_one sub meta static code_review video cfg =
      { team_number := sub.team_number, team_name := sub.team_name,
        project_name := sub.project_name } := by
  unfold _score_one
  rw [h]

theorem _score_one_criteria_empty (sub : Submission) (meta : Option RepoMetadata)
    (static : Option StaticAnalysisResult) (code_review : Option CodeReviewResult)
    (video : Option VideoAnalysisResult) (cfg : ReviewConfig) (sc : ScoringConfig)
    (h : cfg.scoring = some sc) (he : sc.criteria.isEmpty = true) :
    _score_one sub meta static code_review video cfg =
      { team_number := sub.team_number, team_name := sub.team_name,
        project_name := sub.project_name } := by
  unfold _score_one
  rw [h]
  simp [he]

theorem _score_one_scores (sub : Submission) (meta : Option RepoMetadata)
    (static : Option StaticAnalysisResult) (code_review : Option CodeReviewResult)
    (video : Option VideoAnalysisResult) (cfg : ReviewConfig) (sc : ScoringConfig)
    (h : cfg.scoring = some sc) (he : sc.criteria.isEmpty = false) :
    (_score_one sub meta static code_review video cfg).scores =
      sc.criteria.map fun p =>
        (p.1, resolveScore sub (meta.getD (defaultMeta sub))
          (static.getD (defaultStatic sub.team_number)) code_review video p.1) := by
  unfold _score_one
  rw [h]
  simp [he]

theorem _score_one_fixed_fields (sub : Submission) (meta : Option RepoMetadata)
    (static : Option StaticAnalysisResult) (code_review : Option CodeReviewResult)
    (video : Option VideoAnalysisResult) (cfg : ReviewConfig) :
    (_score_one sub meta static code_review video cfg).team_number = sub.team_number ∧
    (_score_one sub meta static code_review video cfg).team_name = sub.team_name ∧
    (_score_one sub meta static code_review video cfg).project_name = sub.project_name := by
  unfold _score_one
  rcases cfg.scoring with _ | sc
  · exact ⟨rfl, rfl, rfl⟩
  · by_cases he : sc.criteria.isEmpty <;> simp [he]

theorem _score_one_total (sub : Submission) (meta : Option RepoMetadata)
    (static : Option StaticAnalysisResult) (code_review : Option CodeReviewResult)
    (video : Option VideoAnalysisResult) (cfg : ReviewConfig) (sc : ScoringConfig)
    (h : cfg.scoring = some sc) (he : sc.criteria.isEmpty = false) :
    (_score_one sub meta static code_review video cfg).weighted_total =
      pyRound 2 ((sc.criteria.map fun p =>
        (resolveScore sub (meta.getD (defaultMeta sub))
          (static.getD (defaultStatic sub.team_number)) code_review video p.1).score
        * p.2.weight).sum) := by
  unfold _score_one
  rw [h]
  simp only [he, Bool.false_eq_true, if_false]
  congr 1
  apply congrArg
  apply List.map_congr_left
  intro p hp
  rw [lookup_map_key_of_mem
    (fun c => resolveScore sub (meta.getD (defaultMeta sub))
      (static.getD (defaultStatic sub.team_number)) code_review video c)
    sc.criteria p hp]

/-! Helper lemmas about the batch sort. -/

instance : IsTotal ProjectScore totalGe :=
  ⟨fun a b => le_total b.weighted_total a.weighted_total⟩

instance : IsTrans ProjectScore totalGe :=
  ⟨fun _ _ _ hab hbc => le_trans hbc hab⟩

/-- Sublist of `l` whose records carry weighted total `t`, in the order of
`l`; used to state sort stability. -/
noncomputable def filterTotal (t : ℝ) (l : List ProjectScore) : List ProjectScore :=
  l.filter fun s => decide (s.weighted_total = t)

theorem filterTotal_cons (t : ℝ) (x : ProjectScore) (l : List ProjectScore) :
    filterTotal t (x :: l) =
      if x.weighted_total = t then x :: filterTotal t l else filterTotal t l := by
  simp only [filterTotal, List.filter_cons]
  split_ifs with h h2 h3
  · rfl
  · exact absurd (of_decide_eq_true h) h2
  · exact absurd (decide_eq_true h3) (by simp [h])
  · rfl

theorem filterTotal_orderedInsert (t : ℝ) (x : ProjectScore) :
    ∀ l : List ProjectScore,
      filterTotal t (List.orderedInsert totalGe x l) =
        if x.weighted_total = t then x :: filterTotal t l else filterTotal t l
  | [] => by
    simp only [List.orderedInsert]
    rw [filterTotal_cons]
  | y :: l => by
    by_cases hxy : totalGe x y
    · rw [List.orderedInsert, if_pos hxy, filterTotal_cons, filterTotal_cons]
    · have hlt : x.weighted_total < y.weighted_total := lt_of_not_le hxy
      rw [List.orderedInsert, if_neg hxy, filterTotal_cons,
        filterTotal_orderedInsert t x l, filterTotal_cons]
      by_cases hx : x.weighted_total = t
      · have hy : y.weighted_total ≠ t := by
          intro hy
          rw [hx, hy] at hlt
          exact lt_irrefl t hlt
        simp [hx, hy]
      · simp [hx]

theorem filterTotal_insertionSort (t : ℝ) :
    ∀ l : List ProjectScore,
      filterTotal t (List.insertionSort totalGe l) = filterTotal t l
  | [] => rfl
  | x :: l => by
    simp only [List.insertionSort]
    rw [filterTotal_orderedInsert, filterTotal_insertionSort t l, filterTotal_cons]

theorem run_scoring_eq_sort (cfg : ReviewConfig) (submissions : List Submission)
    (repo_metadata : List RepoMetadata) (static_results : List StaticAnalysisResult)
    (code_reviews : List CodeReviewResult) (video_results : List VideoAnalysisResult)
    (sc : ScoringConfig) (h : cfg.scoring = some sc) (he : sc.criteria.isEmpty = false) :
    run_scoring cfg submissions repo_metadata static_results code_reviews video_results =
      List.insertionSort totalGe
        (scoredList cfg submissions repo_metadata static_results code_reviews video_results) := by
  unfold run_scoring
  rw [h]
  simp [he]

/-! Concrete sample inputs used by witnesses and counterexamples. -/

/-- A minimal submission. -/
def subA : Submission :=
  { team_number := 1, team_name := "team", project_name := "proj", sanitized_name := "proj" }

/-- A successful code review carrying a demo score of 7 with a justification. -/
def crDemo7 : CodeReviewResult :=
  { team_number := 1, success := true,
    scores := [("demo", { score := 7, rationale := "code demo", source := "llm_review" })] }

/-- A successful video analysis carrying a demo score of 3. -/
def vidDemo3 : VideoAnalysisResult :=
  { team_number := 1, analysis_success := true,
    scores := [("demo", { score := 3, rationale := "video demo", source := "llm_review" })] }

/-- A successful code review carrying an impact score of 7 with a justification. -/
def crImpact : CodeReviewResult :=
  { team_number := 1, success := true,
    scores := [("impact", { score := 7, rationale := "strong impact", source := "llm_review" })] }

/-- A config with a single impact criterion of weight 0.25. -/
def scImpact : ScoringConfig := { criteria := [("impact", { weight := 0.25 })] }

/-- Review config wrapping scImpact. -/
def cfgImpact : ReviewConfig := { scoring := some scImpact }

/-- A config with a recognized and an unrecognized criterion key. -/
def scMixed : ScoringConfig :=
  { criteria := [("impact", { weight := 0.25 }), ("originality", { weight := 0.5 })] }

/-- Review config wrapping scMixed. -/
def cfgMixed : ReviewConfig := { scoring := some scMixed }

/-- Review config with scoring unconfigured. -/
def cfgNone : ReviewConfig := {}

/-- A successful code review carrying a maximal impact score of 10. -/
def crImpact10 : CodeReviewResult :=
  { team_number := 1, success := true,
    scores := [("impact", { score := 10, rationale := "max", source := "llm_review" })] }

/-- A config with a single impact criterion of weight 0.1239. -/
def sc1239 : ScoringConfig := { criteria := [("impact", { weight := 0.1239 })] }

/-- Review config wrapping sc1239. -/
def cfg1239 : ReviewConfig := { scoring := some sc1239 }

/-- Code review of the spec's worked example: impact 7, depth 6, ai_use 8. -/
def crExample : CodeReviewResult :=
  { team_number := 1, success := true,
    scores := [("impact", { score := 7 }), ("depth", { score := 6 }),
               ("ai_use", { score := 8 })] }

/-- Video analysis of the spec's worked example: demo 5. -/
def vidExample : VideoAnalysisResult :=
  { team_number := 1, analysis_success := true, scores := [("demo", { score := 5 })] }

/-- Criteria of the spec's worked example. -/
def scExample : ScoringConfig :=
  { criteria := [("impact", { weight := 0.25 }), ("depth", { weight := 0.20 }),
                 ("demo", { weight := 0.30 }), ("ai_use", { weight := 0.25 })] }

/-- Review config wrapping scExample. -/
def cfgExample : ReviewConfig := { scoring := some scExample }

/-- Validation of the embedding against the spec's worked example: criteria
weighted 0.25/0.20/0.30/0.25, code review reporting impact 7, depth 6,
ai_use 8 (no demo key), video analysis reporting demo 5, give
weighted_total = 7(0.25) + 6(0.20) + 5(0.30) + 8(0.25) = 6.45. -/
theorem spec_worked_example :
    (_score_one subA none none (some crExample) (some vidExample) cfgExample).weighted_total
      = 645 / 100 := by
  have himp : resolveScore subA ((none : Option RepoMetadata).getD (defaultMeta subA))
      ((none : Option StaticAnalysisResult).getD (defaultStatic subA.team_number))
      (some crExample) (some vidExample) "impact" =
      { score := 7, rationale := "", source := "llm_review" } :=
    resolveScore_of_review _ _ _ _ _ _ _ (by rw [videoLlmScore_some]; rfl)
      (by rw [reviewLlmScore_some]; rfl)
  have hdep : resolveScore subA ((none : Option RepoMetadata).getD (defaultMeta subA))
      ((none : Option StaticAnalysisResult).getD (defaultStatic subA.team_number))
      (some crExample) (some vidExample) "depth" =
      { score := 6, rationale := "", source := "llm_review" } :=
    resolveScore_of_review _ _ _ _ _ _ _ (by rw [videoLlmScore_some]; rfl)
      (by rw [reviewLlmScore_some]; rfl)
  have hai : resolveScore subA ((none : Option RepoMetadata).getD (defaultMeta subA))
      ((none : Option StaticAnalysisResult).getD (defaultStatic subA.team_number))
      (some crExample) (some vidExample) "ai_use" =
      { score := 8, rationale := "", source := "llm_review" } :=
    resolveScore_of_review _ _ _ _ _ _ _ (by rw [videoLlmScore_some]; rfl)
      (by rw [reviewLlmScore_some]; rfl)
  have hdemo : resolveScore subA ((none : Option RepoMetadata).getD (defaultMeta subA))
      ((none : Option StaticAnalysisResult).getD (defaultStatic subA.team_number))
      (some crExample) (some vidExample) "demo" =
      { score := 5, rationale := "", source := "llm_review" } :=
    resolveScore_of_video _ _ _ _ _ _ _ (by rw [videoLlmScore_some]; rfl)
  rw [_score_one_total subA none none (some crExample) (some vidExample) cfgExample
    scExample rfl rfl]
  simp only [scExample, List.map_cons, List.map_nil, List.sum_cons, List.sum_nil]
  rw [himp, hdep, hai, hdemo]
  have hsum : ({ score := (7 : ℝ), rationale := "", source := "llm_review" } :
        CriterionScore).score * (0.25 : ℝ)
      + (({ score := (6 : ℝ), rationale := "", source := "llm_review" } :
        CriterionScore).score * (0.20 : ℝ)
      + (({ score := (5 : ℝ), rationale := "", source := "llm_review" } :
        CriterionScore).score * (0.30 : ℝ)
      + (({ score := (8 : ℝ), rationale := "", source := "llm_review" } :
        CriterionScore).score * (0.25 : ℝ) + 0))) = 129 / 20 := by norm_num
  rw [hsum]
  have harg : (129 : ℝ) / 20 * 10 ^ 2 = ((645 : ℤ) : ℝ) := by norm_num
  unfold pyRound
  rw [harg, roundHalfEven_intCast]
  norm_num

/-! Claim theorems. -/

/-- C7: the AI-use heuristic returns exactly 1 when integration_score is 0;
otherwise it returns the clamp to [1,8] of 1 + logScale(score, midpoint 60) × 7
plus the additive pattern bonuses (extended thinking 0.4, protocol/MCP server
0.3, agentic loop 0.3, any recognized SDK 0.3, tool use 0.2); its output never
exceeds 8. -/
theorem c7_heuristic_ai_use (static : StaticAnalysisResult) :
    (static.integration_score = 0 → _heuristic_ai_use static = 1) ∧
    (static.integration_score ≠ 0 →
      _heuristic_ai_use static =
        max 1 (min 8 ((1 + _log_scale (static.integration_score : ℝ) 60 1 * 7)
          + ((if "extended_thinking" ∈ static.integration_patterns then 0.4 else 0)
            + (if "mcp_server" ∈ static.integration_patterns then 0.3 else 0)
            + (if "agentic_pattern" ∈ static.integration_patterns then 0.3 else 0)
            + (if "anthropic_sdk" ∈ static.integration_patterns
                  ∨ "openai_sdk" ∈ static.integration_patterns
                  ∨ "gemini_sdk" ∈ static.integration_patterns then 0.3 else 0)
            + (if "tool_use" ∈ static.integration_patterns then 0.2 else 0))))) ∧
    _heuristic_ai_use static ≤ 8 := by
  refine ⟨fun h => ?_, fun h => ?_, (_heuristic_ai_use_mem static).2⟩
  · unfold _heuristic_ai_use
    rw [if_pos h]
  · unfold _heuristic_ai_use
    rw [if_neg h]

/-- C7 witness: on the default static-analysis record the integration score is
0 and the heuristic evaluates to 1, below the cap of 8. -/
theorem c7_witness :
    _heuristic_ai_use (defaultStatic 1) = 1 ∧ _heuristic_ai_use (defaultStatic 1) ≤ 8 :=
  ⟨(c7_heuristic_ai_use (defaultStatic 1)).1 rfl, (c7_heuristic_ai_use (defaultStatic 1)).2.2⟩

/-- C8: the demo heuristic returns exactly 1 when no video was successfully
downloaded; otherwise it is the clamp to [1,8] of 1 plus the duration bonus
(+0.3 below 30s, +1.0 for [30,60)s, +2.5 for [60,200]s, +2.0 above 200s); its
output never exceeds 8. -/
theorem c8_heuristic_demo (video : Option VideoAnalysisResult) :
    (video = none → _heuristic_demo video = 1) ∧
    (∀ v, video = some v → v.download.success = false → _heuristic_demo video = 1) ∧
    (∀ v, video = some v → v.download.success = true →
      _heuristic_demo video =
        max 1 (min 8 (1 +
          (if v.download.duration_seconds < 30 then 0.3
           else if v.download.duration_seconds < 60 then 1
           else if v.download.duration_seconds ≤ 200 then 2.5 else 2)))) ∧
    _heuristic_demo video ≤ 8 := by
  refine ⟨?_, ?_, ?_, (_heuristic_demo_mem video).2⟩
  · rintro rfl
    rfl
  · rintro v rfl hfail
    simp only [_heuristic_demo]
    rw [if_pos hfail]
  · rintro v rfl hsucc
    simp only [_heuristic_demo]
    rw [if_neg (by simp [hsucc])]

/-- C8 witness: with no video record at all the demo heuristic is exactly 1,
below the cap of 8. -/
theorem c8_witness : _heuristic_demo none = 1 ∧ _heuristic_demo none ≤ 8 :=
  ⟨(c8_heuristic_demo none).1 rfl, (c8_heuristic_demo none).2.2.2⟩

/-- C3 counterexample: a successful code review carries an impact score of 7
with justification text, the merged score has source llm_review, yet its
rationale is the empty string, not that justification. -/
theorem c3_counterexample :
    crImpact.scores.lookup "impact" =
      some { score := 7, rationale := "strong impact", source := "llm_review" } ∧
    (resolveScore subA (defaultMeta subA) (defaultStatic 1) (some crImpact) none "impact").source
      = "llm_review" ∧
    (resolveScore subA (defaultMeta subA) (defaultStatic 1) (some crImpact) none "impact").rationale
      = "" ∧
    ("" : String) ≠ "strong impact" := by
  have hres : resolveScore subA (defaultMeta subA) (defaultStatic 1) (some crImpact) none "impact"
      = { score := 7, rationale := "", source := "llm_review" } := by
    apply resolveScore_of_review
    · exact videoLlmScore_none_video "impact"
    · rfl
  refine ⟨rfl, ?_, ?_, by decide⟩
  · rw [hres]
  · rw [hres]

/-- C3 (amended): the rationale of every merged CriterionScore is the empty
string — also when the score was resolved from an LLM result; the LLM's
justification text is not propagated. -/
theorem c3_amended (sub : Submission) (meta : RepoMetadata)
    (static : StaticAnalysisResult) (code_review : Option CodeReviewResult)
    (video : Option VideoAnalysisResult) (c : String) :
    (resolveScore sub meta static code_review video c).rationale = "" :=
  resolveScore_rationale sub meta static code_review video c

/-- C9: scoring a submission with every evidence record absent against a
non-empty criteria configuration yields a ProjectScore in which every
configured criterion has source "heuristic", and every configured criterion
key matching no estimator (none of impact, ai_use, depth, demo) resolves to
exactly 5.0. -/
theorem c9_empty_evidence (sub : Submission) (cfg : ReviewConfig) (sc : ScoringConfig)
    (h : cfg.scoring = some sc) (he : sc.criteria.isEmpty = false) :
    (∀ p ∈ (_score_one sub none none none none cfg).scores, p.2.source = "heuristic") ∧
    (∀ c ccfg, (c, ccfg) ∈ sc.criteria →
      c ≠ "impact" → c ≠ "ai_use" → c ≠ "depth" → c ≠ "demo" →
      ((_score_one sub none none none none cfg).scores).lookup c =
        some { score := 5, rationale := "", source := "heuristic" }) := by
  constructor
  · rw [_score_one_scores sub none none none none cfg sc h he]
    intro p hp
    rcases List.mem_map.mp hp with ⟨q, hq, rfl⟩
    rw [resolveScore_of_heuristic _ _ _ _ _ _ (videoLlmScore_none_video q.1) (reviewLlmScore_none_review q.1)]
  · intro c ccfg hmem h1 h2 h3 h4
    rw [_score_one_scores sub none none none none cfg sc h he]
    rw [lookup_map_key_of_mem _ sc.criteria (c, ccfg) hmem]
    rw [resolveScore_of_heuristic _ _ _ _ _ _ (videoLlmScore_none_video c) (reviewLlmScore_none_review c)]
    have hval :
        heuristicVal sub ((none : Option RepoMetadata).getD (defaultMeta sub))
          ((none : Option StaticAnalysisResult).getD (defaultStatic sub.team_number)) none c = 5 := by
      unfold heuristicVal
      rw [if_neg h1, if_neg h2, if_neg h3, if_neg h4]
    rw [hval, pyRound_one_five]

/-- C9 witness: at a concrete two-criterion configuration with no evidence,
the unrecognized key "originality" resolves to the neutral 5.0 heuristic
score. -/
theorem c9_witness :
    ((_score_one subA none none none none cfgMixed).scores).lookup "originality" =
      some { score := 5, rationale := "", source := "heuristic" } :=
  (c9_empty_evidence subA cfgMixed scMixed rfl rfl).2 "originality" { weight := 0.5 }
    (List.mem_cons_of_mem _ (List.mem_cons_self _ _))
    (by decide) (by decide) (by decide) (by decide)

/-- C10: against a non-empty criteria configuration, the produced scores
mapping carries exactly the configured criterion keys (in configuration
order), and the weighted total is the 2-decimal rounding of the sum over the
full configured criteria set of resolved score times weight — the
aggregator's skip-missing-criterion branch never fires. -/
theorem c10_full_coverage (sub : Submission) (meta : Option RepoMetadata)
    (static : Option StaticAnalysisResult) (code_review : Option CodeReviewResult)
    (video : Option VideoAnalysisResult) (cfg : ReviewConfig) (sc : ScoringConfig)
    (h : cfg.scoring = some sc) (he : sc.criteria.isEmpty = false) :
    ((_score_one sub meta static code_review video cfg).scores).map Prod.fst =
      sc.criteria.map Prod.fst ∧
    (_score_one sub meta static code_review video cfg).weighted_total =
      pyRound 2 ((sc.criteria.map fun p =>
        (resolveScore sub (meta.getD (defaultMeta sub))
          (static.getD (defaultStatic sub.team_number)) code_review video p.1).score
        * p.2.weight).sum) := by
  constructor
  · rw [_score_one_scores sub meta static code_review video cfg sc h he, List.map_map]
    rfl
  · exact _score_one_total sub meta static code_review video cfg sc h he

/-- C10 witness: at a concrete two-criterion configuration the scores mapping
has exactly the two configured keys in order. -/
theorem c10_witness :
    ((_score_one subA none none none none cfgMixed).scores).map Prod.fst =
      ["impact", "originality"] :=
  (c10_full_coverage subA none none none none cfgMixed scMixed rfl rfl).1

/-- C1 counterexample: the code review succeeds with demo = 7 while a
successful video analysis carries demo = 3; the merged demo score is the
video's 3, not the code review's 7 as the claim requires. -/
theorem c1_counterexample :
    crDemo7.success = true ∧
    crDemo7.scores.lookup "demo" =
      some { score := 7, rationale := "code demo", source := "llm_review" } ∧
    resolveScore subA (defaultMeta subA) (defaultStatic 1) (some crDemo7) (some vidDemo3) "demo" =
      { score := 3, rationale := "", source := "llm_review" } ∧
    (3 : ℝ) ≠ 7 := by
  refine ⟨rfl, rfl, ?_, by norm_num⟩
  apply resolveScore_of_video
  rw [videoLlmScore_some]
  rfl

/-- C1 (amended): a successful code review's score for criterion c is the
merged score with source "llm_review" — except when the video-analysis demo
override applies (c is "demo" and a successful video analysis carries a
"demo" score), in which case the video's score wins, still with source
"llm_review". -/
theorem c1_amended (sub : Submission) (meta : RepoMetadata)
    (static : StaticAnalysisResult) (cr : CodeReviewResult)
    (video : Option VideoAnalysisResult) (c : String) (r : CriterionScore)
    (hs : cr.success = true) (hr : cr.scores.lookup c = some r) :
    (videoLlmScore video c = none →
      resolveScore sub meta static (some cr) video c =
        { score := r.score, rationale := "", source := "llm_review" }) ∧
    (∀ s, videoLlmScore video c = some s →
      resolveScore sub meta static (some cr) video c =
        { score := s, rationale := "", source := "llm_review" }) := by
  constructor
  · intro hv
    apply resolveScore_of_review sub meta static (some cr) video c r.score hv
    rw [reviewLlmScore_some, if_pos hs, hr]
    rfl
  · intro s hv
    exact resolveScore_of_video sub meta static (some cr) video c s hv

/-- C1 witness: with no video record, the merged demo score is the code
review's 7 with source llm_review. -/
theorem c1_witness :
    resolveScore subA (defaultMeta subA) (defaultStatic 1) (some crDemo7) none "demo" =
      { score := 7, rationale := "", source := "llm_review" } :=
  (c1_amended subA (defaultMeta subA) (defaultStatic 1) crDemo7 none "demo"
    { score := 7, rationale := "code demo", source := "llm_review" } rfl rfl).1
    (videoLlmScore_none_video "demo")

/-- C2 counterexample: with scoring unconfigured and one input submission,
the batch scorer returns zero records, not one per submission. -/
theorem c2_counterexample :
    run_scoring cfgNone [subA] [] [] [] [] = [] ∧
    [subA].length = 1 ∧
    (run_scoring cfgNone [subA] [] [] [] []).length ≠ 1 := by
  refine ⟨rfl, rfl, ?_⟩
  intro hcontra
  rw [show run_scoring cfgNone [subA] [] [] [] [] = [] from rfl] at hcontra
  exact absurd hcontra (by norm_num)

/-- C2 (amended): when the criteria mapping is absent or empty the batch
scorer returns the empty list — every submission's record is omitted; the
per-submission scorer, if invoked directly, still returns a ProjectScore
with empty scores and weighted_total = 0. -/
theorem c2_amended (cfg : ReviewConfig) (subs : List Submission)
    (metas : List RepoMetadata) (statics : List StaticAnalysisResult)
    (crs : List CodeReviewResult) (vids : List VideoAnalysisResult)
    (h : cfg.scoring = none ∨ ∃ sc, cfg.scoring = some sc ∧ sc.criteria.isEmpty = true) :
    run_scoring cfg subs metas statics crs vids = [] ∧
    ∀ (sub : Submission) (meta : Option RepoMetadata) (static : Option StaticAnalysisResult)
      (cr : Option CodeReviewResult) (video : Option VideoAnalysisResult),
      _score_one sub meta static cr video cfg =
        { team_number := sub.team_number, team_name := sub.team_name,
          project_name := sub.project_name, scores := [], weighted_total := 0,
          score_source := "automated" } := by
  rcases h with h | ⟨sc, h, he⟩
  · constructor
    · unfold run_scoring
      rw [h]
    · intro sub meta static cr video
      exact _score_one_scoring_none sub meta static cr video cfg h
  · constructor
    · unfold run_scoring
      rw [h]
      simp [he]
    · intro sub meta static cr video
      exact _score_one_criteria_empty sub meta static cr video cfg sc h he

/-- C2 witness: concrete instance of the amended claim with an unconfigured
scoring section and one submission. -/
theorem c2_witness :
    run_scoring cfgNone [subA] [] [] [] [] = [] ∧
    _score_one subA none none none none cfgNone =
      { team_number := 1, team_name := "team", project_name := "proj",
        scores := [], weighted_total := 0, score_source := "automated" } :=
  ⟨(c2_amended cfgNone [subA] [] [] [] [] (Or.inl rfl)).1,
   (c2_amended cfgNone [subA] [] [] [] [] (Or.inl rfl)).2 subA none none none none⟩

/-- C4: under the precondition that all LLM-supplied scores lie in [1,10],
every resolved CriterionScore.score of a produced ProjectScore lies in
[1.0, 10.0] — heuristic values are clamped there, LLM values pass through
within the assumed range. -/
theorem c4_range_invariant (sub : Submission) (meta : Option RepoMetadata)
    (static : Option StaticAnalysisResult) (code_review : Option CodeReviewResult)
    (video : Option VideoAnalysisResult) (cfg : ReviewConfig)
    (hcr : ∀ cr, code_review = some cr → ∀ p ∈ cr.scores, 1 ≤ p.2.score ∧ p.2.score ≤ 10)
    (hvid : ∀ v, video = some v → ∀ p ∈ v.scores, 1 ≤ p.2.score ∧ p.2.score ≤ 10) :
    ∀ p ∈ (_score_one sub meta static code_review video cfg).scores,
      1 ≤ p.2.score ∧ p.2.score ≤ 10 := by
  intro p hp
  rcases hsc : cfg.scoring with _ | sc
  · rw [_score_one_scoring_none sub meta static code_review video cfg hsc] at hp
    cases hp
  · by_cases he : sc.criteria.isEmpty
    · rw [_score_one_criteria_empty sub meta static code_review video cfg sc hsc he] at hp
      cases hp
    · rw [_score_one_scores sub meta static code_review video cfg sc hsc
        (by simpa using he)] at hp
      rcases List.mem_map.mp hp with ⟨q, _, rfl⟩
      exact resolveScore_score_mem sub _ _ code_review video q.1 hcr hvid

/-- C4 witness: with no code review and no video the precondition is vacuous
and the concrete heuristic-resolved impact score lies in [1,10]. -/
theorem c4_witness :
    1 ≤ (resolveScore subA ((none : Option RepoMetadata).getD (defaultMeta subA))
          ((none : Option StaticAnalysisResult).getD (defaultStatic subA.team_number))
          none none "impact").score ∧
    (resolveScore subA ((none : Option RepoMetadata).getD (defaultMeta subA))
          ((none : Option StaticAnalysisResult).getD (defaultStatic subA.team_number))
          none none "impact").score ≤ 10 := by
  have hmem : ("impact",
      resolveScore subA ((none : Option RepoMetadata).getD (defaultMeta subA))
        ((none : Option StaticAnalysisResult).getD (defaultStatic subA.team_number))
        none none "impact") ∈ (_score_one subA none none none none cfgImpact).scores := by
    rw [_score_one_scores subA none none none none cfgImpact scImpact rfl rfl]
    exact List.mem_singleton.mpr rfl
  exact c4_range_invariant subA none none none none cfgImpact
    (fun cr habs => nomatch habs) (fun v habs => nomatch habs) _ hmem

/-- Bounds for a weighted sum of per-criterion scores: with nonnegative
weights and scores in [1,10] the sum lies between 1 and 10 times the weight
sum. -/
theorem sum_mul_weight_bounds :
    ∀ (crit : List (String × ScoringCriterion)) (g : String → ℝ),
      (∀ p ∈ crit, 0 ≤ p.2.weight) → (∀ p ∈ crit, 1 ≤ g p.1 ∧ g p.1 ≤ 10) →
      (crit.map fun p => p.2.weight).sum ≤ (crit.map fun p => g p.1 * p.2.weight).sum ∧
      (crit.map fun p => g p.1 * p.2.weight).sum ≤ 10 * (crit.map fun p => p.2.weight).sum
  | [], _, _, _ => by simp
  | q :: l, g, hw, hg => by
    have hq := hw q (List.mem_cons_self q l)
    have hgq := hg q (List.mem_cons_self q l)
    have ihl := sum_mul_weight_bounds l g
      (fun p hp => hw p (List.mem_cons_of_mem q hp))
      (fun p hp => hg p (List.mem_cons_of_mem q hp))
    have h1 : q.2.weight ≤ g q.1 * q.2.weight := le_mul_of_one_le_left hq hgq.1
    have h2 : g q.1 * q.2.weight ≤ 10 * q.2.weight :=
      mul_le_mul_of_nonneg_right hgq.2 hq
    simp only [List.map_cons, List.sum_cons]
    constructor
    · linarith [ihl.1]
    · linarith [ihl.2]

/-- C5 counterexample: one criterion of weight 0.1239, LLM impact score 10
(in range): the exact weighted sum is 1.239 but the recorded weighted_total
is its 2-decimal rounding 1.24, which exceeds 10 × Σ(weights) = 1.239 — the
claimed upper bound fails after rounding. -/
theorem c5_counterexample :
    (_score_one subA none none (some crImpact10) none cfg1239).scores =
      [("impact", { score := 10, rationale := "", source := "llm_review" })] ∧
    1 ≤ (10 : ℝ) ∧ (10 : ℝ) ≤ 10 ∧
    (_score_one subA none none (some crImpact10) none cfg1239).weighted_total = 124 / 100 ∧
    10 * ((sc1239.criteria.map fun p => p.2.weight).sum) = 1239 / 1000 ∧
    ¬ ((_score_one subA none none (some crImpact10) none cfg1239).weighted_total ≤
        10 * ((sc1239.criteria.map fun p => p.2.weight).sum)) := by
  have hr10 : reviewLlmScore (some crImpact10) "impact" = some 10 := by
    rw [reviewLlmScore_some]
    rfl
  have hres : resolveScore subA ((none : Option RepoMetadata).getD (defaultMeta subA))
      ((none : Option StaticAnalysisResult).getD (defaultStatic subA.team_number))
      (some crImpact10) none "impact" =
      { score := 10, rationale := "", source := "llm_review" } :=
    resolveScore_of_review _ _ _ _ _ _ _ (videoLlmScore_none_video "impact") hr10
  have hscores : (_score_one subA none none (some crImpact10) none cfg1239).scores =
      [("impact", { score := 10, rationale := "", source := "llm_review" })] := by
    rw [_score_one_scores subA none none (some crImpact10) none cfg1239 sc1239 rfl rfl]
    simp only [sc1239, List.map_cons, List.map_nil]
    rw [hres]
  have hsum : ((sc1239.criteria.map fun p =>
      (resolveScore subA ((none : Option RepoMetadata).getD (defaultMeta subA))
        ((none : Option StaticAnalysisResult).getD (defaultStatic subA.team_number))
        (some crImpact10) none p.1).score * p.2.weight).sum) = 1239 / 1000 := by
    simp only [sc1239, List.map_cons, List.map_nil, List.sum_cons, List.sum_nil]
    rw [hres]
    norm_num
  have hfl : ⌊(1239 : ℝ) / 10⌋ = 123 := by
    rw [Int.floor_eq_iff]
    constructor <;> norm_num
  have hrhe : roundHalfEven ((1239 : ℝ) / 10) = 124 := by
    unfold roundHalfEven
    rw [hfl]
    norm_num
  have hround : pyRound 2 ((1239 : ℝ) / 1000) = 124 / 100 := by
    have harg : (1239 : ℝ) / 1000 * 10 ^ 2 = 1239 / 10 := by norm_num
    unfold pyRound
    rw [harg, hrhe]
    norm_num
  have htot : (_score_one subA none none (some crImpact10) none cfg1239).weighted_total
      = 124 / 100 := by
    rw [_score_one_total subA none none (some crImpact10) none cfg1239 sc1239 rfl rfl,
      hsum, hround]
  refine ⟨hscores, by norm_num, by norm_num, htot, by simp [sc1239]; norm_num, ?_⟩
  rw [htot]
  simp only [sc1239, List.map_cons, List.map_nil, List.sum_cons, List.sum_nil]
  norm_num

/-- C5 (amended): weighted_total equals the 2-decimal rounding of the sum
over all configured criteria of score × weight; with nonnegative weights and
all resolved scores in [1,10] it lies within half of 0.01 of the exact
bounds: 1 × Σ(weights) − 0.005 ≤ weighted_total ≤ 10 × Σ(weights) + 0.005 —
rounding can push the recorded total past the exact bounds by at most
0.005. -/
theorem c5_amended (sub : Submission) (meta : Option RepoMetadata)
    (static : Option StaticAnalysisResult) (code_review : Option CodeReviewResult)
    (video : Option VideoAnalysisResult) (cfg : ReviewConfig) (sc : ScoringConfig)
    (h : cfg.scoring = some sc) (he : sc.criteria.isEmpty = false)
    (hw : ∀ p ∈ sc.criteria, 0 ≤ p.2.weight)
    (hrange : ∀ p ∈ (_score_one sub meta static code_review video cfg).scores,
      1 ≤ p.2.score ∧ p.2.score ≤ 10) :
    (_score_one sub meta static code_review video cfg).weighted_total =
      pyRound 2 ((sc.criteria.map fun p =>
        (resolveScore sub (meta.getD (defaultMeta sub))
          (static.getD (defaultStatic sub.team_number)) code_review video p.1).score
        * p.2.weight).sum) ∧
    1 * ((sc.criteria.map fun p => p.2.weight).sum) - 1 / 200 ≤
      (_score_one sub meta static code_review video cfg).weighted_total ∧
    (_score_one sub meta static code_review video cfg).weighted_total ≤
      10 * ((sc.criteria.map fun p => p.2.weight).sum) + 1 / 200 := by
  have htot := _score_one_total sub meta static code_review video cfg sc h he
  have hg : ∀ p ∈ sc.criteria,
      1 ≤ (resolveScore sub (meta.getD (defaultMeta sub))
        (static.getD (defaultStatic sub.team_number)) code_review video p.1).score ∧
      (resolveScore sub (meta.getD (defaultMeta sub))
        (static.getD (defaultStatic sub.team_number)) code_review video p.1).score ≤ 10 := by
    intro p hp
    have hmem : (p.1, resolveScore sub (meta.getD (defaultMeta sub))
        (static.getD (defaultStatic sub.team_number)) code_review video p.1)
        ∈ (_score_one sub meta static code_review video cfg).scores := by
      rw [_score_one_scores sub meta static code_review video cfg sc h he]
      exact List.mem_map_of_mem _ hp
    exact hrange _ hmem
  have hb := sum_mul_weight_bounds sc.criteria
    (fun c => (resolveScore sub (meta.getD (defaultMeta sub))
      (static.getD (defaultStatic sub.team_number)) code_review video c).score) hw hg
  simp only [] at hb
  have hr := pyRound_two_within ((sc.criteria.map fun p =>
    (resolveScore sub (meta.getD (defaultMeta sub))
      (static.getD (defaultStatic sub.team_number)) code_review video p.1).score
    * p.2.weight).sum)
  refine ⟨htot, ?_, ?_⟩
  · rw [htot]
    linarith [hb.1, hr.1]
  · rw [htot]
    linarith [hb.2, hr.2]

/-- C5 witness: concrete instance with one impact criterion of weight 0.25
and an LLM impact score of 7; the bounds hold with the rounding margin. -/
theorem c5_witness :
    1 * ((scImpact.criteria.map fun p => p.2.weight).sum) - 1 / 200 ≤
      (_score_one subA none none (some crImpact) none cfgImpact).weighted_total ∧
    (_score_one subA none none (some crImpact) none cfgImpact).weighted_total ≤
      10 * ((scImpact.criteria.map fun p => p.2.weight).sum) + 1 / 200 := by
  have hres : resolveScore subA ((none : Option RepoMetadata).getD (defaultMeta subA))
      ((none : Option StaticAnalysisResult).getD (defaultStatic subA.team_number))
      (some crImpact) none "impact" =
      { score := 7, rationale := "", source := "llm_review" } :=
    resolveScore_of_review _ _ _ _ _ _ _ (videoLlmScore_none_video "impact")
      (by rw [reviewLlmScore_some]; rfl)
  have hrange : ∀ p ∈ (_score_one subA none none (some crImpact) none cfgImpact).scores,
      1 ≤ p.2.score ∧ p.2.score ≤ 10 := by
    rw [_score_one_scores subA none none (some crImpact) none cfgImpact scImpact rfl rfl]
    simp only [scImpact, List.map_cons, List.map_nil]
    rw [hres]
    intro p hp
    rcases List.mem_singleton.mp hp with rfl
    norm_num
  have hw : ∀ p ∈ scImpact.criteria, 0 ≤ p.2.weight := by
    intro p hp
    rcases List.mem_singleton.mp hp with rfl
    norm_num
  have h := c5_amended subA none none (some crImpact) none cfgImpact scImpact rfl rfl hw hrange
  exact ⟨h.2.1, h.2.2⟩

/-- C6: against a non-empty criteria configuration the batch scorer returns
exactly one record per input submission, sorted by weighted_total descending,
and records with equal totals keep the relative order of their submissions in
the input list (the per-total sublists of the output coincide with those of
the unsorted, input-ordered score list). -/
theorem c6_ranking (cfg : ReviewConfig) (subs : List Submission)
    (metas : List RepoMetadata) (statics : List StaticAnalysisResult)
    (crs : List CodeReviewResult) (vids : List VideoAnalysisResult) (sc : ScoringConfig)
    (h : cfg.scoring = some sc) (he : sc.criteria.isEmpty = false) :
    (run_scoring cfg subs metas statics crs vids).length = subs.length ∧
    List.Pairwise totalGe (run_scoring cfg subs metas statics crs vids) ∧
    List.Perm (run_scoring cfg subs metas statics crs vids)
      (scoredList cfg subs metas statics crs vids) ∧
    ∀ t, filterTotal t (run_scoring cfg subs metas statics crs vids) =
      filterTotal t (scoredList cfg subs metas statics crs vids) := by
  rw [run_scoring_eq_sort cfg subs metas statics crs vids sc h he]
  refine ⟨?_, ?_, List.perm_insertionSort totalGe _,
    fun t => filterTotal_insertionSort t _⟩
  · rw [(List.perm_insertionSort totalGe _).length_eq]
    unfold scoredList
    exact List.length_map _ _
  · exact List.sorted_insertionSort totalGe _

/-- C6 witness: one submission, one criterion: the output has one record and
is trivially sorted. -/
theorem c6_witness :
    (run_scoring cfgImpact [subA] [] [] [] []).length = 1 ∧
    List.Pairwise totalGe (run_scoring cfgImpact [subA] [] [] [] []) := by
  have h := c6_ranking cfgImpact [subA] [] [] [] [] scImpact rfl rfl
  exact ⟨h.1, h.2.1⟩

end HackathonReviewer
